import Mathlib

/-!
Verification of the pymanoid kinematic core (body.py, tasks/link.py).

Rigid-body transforms are embedded as a 3x3 rational rotation block plus a
rational translation vector (the relevant blocks of the 4x4 homogeneous
matrix); poses are 7-tuples (quaternion scalar-first, then translation).
Machine floats are modelled by exact rationals.  Task targets and numpy
1-D arrays are embedded as rational lists with numpy's elementwise
subtraction/multiplication semantics (including length-1 broadcasting).
-/

namespace Pymanoid

/-- Rational 3-vector, modelling a numpy 3-vector (position, velocity,
angular velocity, rpy triple). -/
@[ext]
structure V3 where
  x : ℚ
  y : ℚ
  z : ℚ
deriving DecidableEq

def V3.add (a b : V3) : V3 := ⟨a.x + b.x, a.y + b.y, a.z + b.z⟩

def V3.smul (c : ℚ) (a : V3) : V3 := ⟨c * a.x, c * a.y, c * a.z⟩

/-- Rational 3x3 matrix with row-major named entries, modelling the
rotation block of an OpenRAVE transform. -/
@[ext]
structure M3 where
  m00 : ℚ
  m01 : ℚ
  m02 : ℚ
  m10 : ℚ
  m11 : ℚ
  m12 : ℚ
  m20 : ℚ
  m21 : ℚ
  m22 : ℚ
deriving DecidableEq

def M3.id : M3 := ⟨1, 0, 0, 0, 1, 0, 0, 0, 1⟩

def M3.add (a b : M3) : M3 :=
  ⟨a.m00 + b.m00, a.m01 + b.m01, a.m02 + b.m02,
   a.m10 + b.m10, a.m11 + b.m11, a.m12 + b.m12,
   a.m20 + b.m20, a.m21 + b.m21, a.m22 + b.m22⟩

def M3.smul (c : ℚ) (a : M3) : M3 :=
  ⟨c * a.m00, c * a.m01, c * a.m02,
   c * a.m10, c * a.m11, c * a.m12,
   c * a.m20, c * a.m21, c * a.m22⟩

def M3.mul (a b : M3) : M3 :=
  ⟨a.m00 * b.m00 + a.m01 * b.m10 + a.m02 * b.m20,
   a.m00 * b.m01 + a.m01 * b.m11 + a.m02 * b.m21,
   a.m00 * b.m02 + a.m01 * b.m12 + a.m02 * b.m22,
   a.m10 * b.m00 + a.m11 * b.m10 + a.m12 * b.m20,
   a.m10 * b.m01 + a.m11 * b.m11 + a.m12 * b.m21,
   a.m10 * b.m02 + a.m11 * b.m12 + a.m12 * b.m22,
   a.m20 * b.m00 + a.m21 * b.m10 + a.m22 * b.m20,
   a.m20 * b.m01 + a.m21 * b.m11 + a.m22 * b.m21,
   a.m20 * b.m02 + a.m21 * b.m12 + a.m22 * b.m22⟩

/-- Modelled from the spec: `rotations.crossmat` (rotations.py is not under
src/); the spec describes the angular update as `skew(omega) . R`, so this
is the standard skew-symmetric cross-product matrix of omega. -/
def crossmat (w : V3) : M3 :=
  ⟨0, -w.z, w.y,
   w.z, 0, -w.x,
   -w.y, w.x, 0⟩

/-- Rigid transform: rotation block and translation column of the 4x4
homogeneous matrix returned by `GetTransform` (the constant bottom row is
omitted). -/
@[ext]
structure Transform where
  R : M3
  p : V3
deriving DecidableEq

/-- Body.set_transform: replaces the transform wholesale. -/
def setTransform (_T Tnew : Transform) : Transform := Tnew

/-- Body.set_pos: copies the transform and overwrites the translation
column. -/
def setPos (T : Transform) (pos : V3) : Transform := setTransform T ⟨T.R, pos⟩

/-- Body.set_rotation_matrix: copies the transform and overwrites the 3x3
rotation block. -/
def setRotationMatrix (T : Transform) (R : M3) : Transform := setTransform T ⟨R, T.p⟩

/-- Body.set_x: copies the transform and overwrites entry [0,3]. -/
def setX (T : Transform) (v : ℚ) : Transform := setTransform T ⟨T.R, ⟨v, T.p.y, T.p.z⟩⟩

/-- Body.set_y: copies the transform and overwrites entry [1,3]. -/
def setY (T : Transform) (v : ℚ) : Transform := setTransform T ⟨T.R, ⟨T.p.x, v, T.p.z⟩⟩

/-- Body.set_z: copies the transform and overwrites entry [2,3]. -/
def setZ (T : Transform) (v : ℚ) : Transform := setTransform T ⟨T.R, ⟨T.p.x, T.p.y, v⟩⟩

/-- Body.apply_twist: `set_pos(p + v*dt)` followed by
`set_rotation_matrix(R + crossmat(omega).R * dt)`, reading `self.p` and
`self.R` live between the two calls, exactly as the source does. -/
def applyTwist (T : Transform) (v w : V3) (dt : ℚ) : Transform :=
  let T1 := setPos T (V3.add T.p (V3.smul dt v))
  setRotationMatrix T1 (M3.add T1.R (M3.smul dt (M3.mul (crossmat w) T1.R)))

/-- Quaternion as a scalar-first 4-tuple of rationals. -/
@[ext]
structure V4 where
  w : ℚ
  x : ℚ
  y : ℚ
  z : ℚ
deriving DecidableEq

/-- Pose in OpenRAVE convention: quaternion (scalar first) then
translation. -/
@[ext]
structure Pose7 where
  qw : ℚ
  qx : ℚ
  qy : ℚ
  qz : ℚ
  tx : ℚ
  ty : ℚ
  tz : ℚ
deriving DecidableEq

/-- Body.pose sign canonicalization (body.py, `if pose[0] < 0:
pose[:4] *= -1`): negate the four quaternion components when the raw
scalar component is negative, leaving the translation untouched. -/
def canonicalizePose (raw : Pose7) : Pose7 :=
  if raw.qw < 0 then
    ⟨-raw.qw, -raw.qx, -raw.qy, -raw.qz, raw.tx, raw.ty, raw.tz⟩
  else raw

/-- Raw pose delivered by the external `GetTransformPose`: the quaternion of
the rotation block (the matrix-to-quaternion decomposition `qOf` is the
external engine's and is kept as a parameter) paired with the transform's
translation. -/
def rawPose (qOf : M3 → V4) (T : Transform) : Pose7 :=
  ⟨(qOf T.R).w, (qOf T.R).x, (qOf T.R).y, (qOf T.R).z, T.p.x, T.p.y, T.p.z⟩

/-- Body.pose: the raw transform-to-pose conversion followed by the sign
canonicalization. -/
def bodyPose (qOf : M3 → V4) (T : Transform) : Pose7 :=
  canonicalizePose (rawPose qOf T)

/-- Modelled from the spec: the rotation matrix of a unit quaternion, the
standard conversion used by `openravepy.matrixFromPose` (not under src/);
every entry is quadratic in the quaternion components. -/
def rotOfQuat (q : V4) : M3 :=
  ⟨1 - 2 * (q.y ^ 2 + q.z ^ 2), 2 * (q.x * q.y - q.z * q.w), 2 * (q.x * q.z + q.y * q.w),
   2 * (q.x * q.y + q.z * q.w), 1 - 2 * (q.x ^ 2 + q.z ^ 2), 2 * (q.y * q.z - q.x * q.w),
   2 * (q.x * q.z - q.y * q.w), 2 * (q.y * q.z + q.x * q.w), 1 - 2 * (q.x ^ 2 + q.y ^ 2)⟩

/-- Modelled from the spec: `openravepy.matrixFromPose` (not under src/),
the pose-to-transform conversion: rotation block from the quaternion,
translation from the last three pose components. -/
def matrixFromPose (pose : Pose7) : Transform :=
  ⟨rotOfQuat ⟨pose.qw, pose.qx, pose.qy, pose.qz⟩, ⟨pose.tx, pose.ty, pose.tz⟩⟩

/-- Body.set_pose: `set_transform(matrixFromPose(pose))`. -/
def setPose (T : Transform) (pose : Pose7) : Transform :=
  setTransform T (matrixFromPose pose)

/-- Replace the quaternion block of a pose (`pose[0:4] = quat`). -/
def Pose7.withQuat (pose : Pose7) (q : V4) : Pose7 :=
  ⟨q.w, q.x, q.y, q.z, pose.tx, pose.ty, pose.tz⟩

/-- Body.set_quat: read the current (canonicalized) pose, overwrite its
quaternion block, and write it back through set_pose. -/
def setQuat (qOf : M3 → V4) (T : Transform) (q : V4) : Transform :=
  setPose T ((bodyPose qOf T).withQuat q)

/-- C2: the canonicalized pose always has a non-negative quaternion scalar
component; when the raw conversion yields a negative scalar, all four
quaternion components are negated; otherwise the pose is returned as is; in
both cases the translation components are unchanged. -/
theorem canonicalizePose_spec (raw : Pose7) :
    0 ≤ (canonicalizePose raw).qw ∧
    (canonicalizePose raw).tx = raw.tx ∧
    (canonicalizePose raw).ty = raw.ty ∧
    (canonicalizePose raw).tz = raw.tz ∧
    (raw.qw < 0 →
      canonicalizePose raw =
        ⟨-raw.qw, -raw.qx, -raw.qy, -raw.qz, raw.tx, raw.ty, raw.tz⟩) ∧
    (0 ≤ raw.qw → canonicalizePose raw = raw) := by
  unfold canonicalizePose
  split
  · rename_i hneg
    refine ⟨show 0 ≤ -raw.qw by linarith, rfl, rfl, rfl, fun _ => rfl, fun h => ?_⟩
    exact absurd h (by linarith)
  · rename_i h
    push_neg at h
    exact ⟨h, rfl, rfl, rfl, fun hneg => absurd hneg (by linarith), fun _ => rfl⟩

/-- Witness for C2 at the raw pose (-1, 2, 3, 4, 5, 6, 7). -/
theorem canonicalizePose_spec_witness :
    0 ≤ (canonicalizePose ⟨-1, 2, 3, 4, 5, 6, 7⟩).qw ∧
    canonicalizePose ⟨-1, 2, 3, 4, 5, 6, 7⟩ = ⟨1, -2, -3, -4, 5, 6, 7⟩ := by
  refine ⟨(canonicalizePose_spec ⟨-1, 2, 3, 4, 5, 6, 7⟩).1, ?_⟩
  have h := (canonicalizePose_spec ⟨-1, 2, 3, 4, 5, 6, 7⟩).2.2.2.2.1 (by norm_num)
  simpa using h

/-- Point / PointMass kinematic state: the body transform plus the
translational velocity `__pd`. -/
@[ext]
structure PointState where
  T : Transform
  pd : V3
deriving DecidableEq

/-- Point.set_velocity: overwrite the stored velocity. -/
def setVelocity (s : PointState) (v : V3) : PointState := ⟨s.T, v⟩

/-- Body.set_pos lifted to the point state (does not touch the velocity). -/
def pointSetPos (s : PointState) (pos : V3) : PointState := ⟨setPos s.T pos, s.pd⟩

/-- Point.integrate_acceleration: `set_pos(p + pd*dt + pdd*0.5*dt^2)` then
`set_velocity(pd + pdd*dt)`, with `self.pd` read live at each use exactly
as in the source (set_pos does not change it). -/
def integrateAcceleration (s : PointState) (pdd : V3) (dt : ℚ) : PointState :=
  let s1 := pointSetPos s
    (V3.add s.T.p (V3.add (V3.smul dt s.pd) (V3.smul (1 / 2 * dt ^ 2) pdd)))
  setVelocity s1 (V3.add s1.pd (V3.smul dt pdd))

/-- Starting point state of end-to-end scenario 3: point at the origin with
zero velocity. -/
def originPoint : PointState := ⟨⟨M3.id, ⟨0, 0, 0⟩⟩, ⟨0, 0, 0⟩⟩

/-- C3: integrate_acceleration applies the constant-acceleration update to
position (with the pre-update velocity) and velocity in the same call;
dt = 0 is a no-op; and the concrete instance p = 0, v = 0,
a = (0, 0, -9.8), dt = 1 yields position (0, 0, -4.9) and velocity
(0, 0, -9.8). -/
theorem integrateAcceleration_spec (s : PointState) (pdd : V3) (dt : ℚ)
    (hdt : 0 ≤ dt) :
    ((integrateAcceleration s pdd dt).T.p.x
        = s.T.p.x + s.pd.x * dt + 1 / 2 * pdd.x * dt ^ 2 ∧
      (integrateAcceleration s pdd dt).T.p.y
        = s.T.p.y + s.pd.y * dt + 1 / 2 * pdd.y * dt ^ 2 ∧
      (integrateAcceleration s pdd dt).T.p.z
        = s.T.p.z + s.pd.z * dt + 1 / 2 * pdd.z * dt ^ 2) ∧
    ((integrateAcceleration s pdd dt).pd.x = s.pd.x + pdd.x * dt ∧
      (integrateAcceleration s pdd dt).pd.y = s.pd.y + pdd.y * dt ∧
      (integrateAcceleration s pdd dt).pd.z = s.pd.z + pdd.z * dt) ∧
    integrateAcceleration s pdd 0 = s ∧
    integrateAcceleration originPoint ⟨0, 0, -(49 / 5)⟩ 1
      = ⟨⟨M3.id, ⟨0, 0, -(49 / 10)⟩⟩, ⟨0, 0, -(49 / 5)⟩⟩ := by
  obtain ⟨⟨R, ⟨px, py, pz⟩⟩, ⟨vx, vy, vz⟩⟩ := s
  obtain ⟨ax, ay, az⟩ := pdd
  refine ⟨⟨?_, ?_, ?_⟩, ⟨?_, ?_, ?_⟩, ?_, ?_⟩ <;>
    simp only [integrateAcceleration, pointSetPos, setVelocity, setPos,
      setTransform, V3.add, V3.smul, originPoint]
  · ring
  · ring
  · ring
  · ring
  · ring
  · ring
  · norm_num
  · norm_num

/-- Witness for C3 at the concrete scenario input (dt = 1 ≥ 0). -/
theorem integrateAcceleration_spec_witness :
    (0 : ℚ) ≤ 1 ∧
      integrateAcceleration originPoint ⟨0, 0, -(49 / 5)⟩ 1
        = ⟨⟨M3.id, ⟨0, 0, -(49 / 10)⟩⟩, ⟨0, 0, -(49 / 5)⟩⟩ :=
  ⟨by norm_num,
    (integrateAcceleration_spec originPoint ⟨0, 0, -(49 / 5)⟩ 1
      (by norm_num)).2.2.2⟩

/-- C4: each partial mutator overwrites only its targeted component:
set_x preserves y, z and the rotation block (symmetrically set_y, set_z);
set_pos preserves the rotation block; set_rotation_matrix preserves the
translation; set_quat preserves the translation components. -/
theorem partialMutators_preserve (T : Transform) (v : ℚ) (pos : V3) (R : M3)
    (qOf : M3 → V4) (q : V4) :
    ((setX T v).p.y = T.p.y ∧ (setX T v).p.z = T.p.z ∧ (setX T v).R = T.R) ∧
    ((setY T v).p.x = T.p.x ∧ (setY T v).p.z = T.p.z ∧ (setY T v).R = T.R) ∧
    ((setZ T v).p.x = T.p.x ∧ (setZ T v).p.y = T.p.y ∧ (setZ T v).R = T.R) ∧
    (setPos T pos).R = T.R ∧
    (setRotationMatrix T R).p = T.p ∧
    (setQuat qOf T q).p = T.p := by
  refine ⟨⟨rfl, rfl, rfl⟩, ⟨rfl, rfl, rfl⟩, ⟨rfl, rfl, rfl⟩, rfl, rfl, ?_⟩
  simp only [setQuat, setPose, setTransform, matrixFromPose, Pose7.withQuat,
    bodyPose, rawPose, canonicalizePose]
  split <;> rfl

/-- C5: apply_twist sets the new position to p + v*dt (not p + R*v*dt) and
the new rotation block to R + (skew(omega) * R) * dt, with no
renormalization, R being the rotation block read before the call. -/
theorem applyTwist_spec (T : Transform) (v w : V3) (dt : ℚ) :
    (applyTwist T v w dt).p.x = T.p.x + v.x * dt ∧
    (applyTwist T v w dt).p.y = T.p.y + v.y * dt ∧
    (applyTwist T v w dt).p.z = T.p.z + v.z * dt ∧
    (applyTwist T v w dt).R = M3.add T.R (M3.smul dt (M3.mul (crossmat w) T.R)) := by
  refine ⟨?_, ?_, ?_, rfl⟩ <;>
    simp only [applyTwist, setPos, setRotationMatrix, setTransform, V3.add,
      V3.smul] <;> ring

/-- C6: for any transform T and any raw pose the external conversion could
return for it (characterized by matrixFromPose raw = T), feeding the
canonicalized pose accessor output back through set_pose reproduces T,
because the pose-to-transform conversion accepts either quaternion sign. -/
theorem pose_roundtrip (T T0 : Transform) (raw : Pose7)
    (h : matrixFromPose raw = T) :
    setPose T0 (canonicalizePose raw) = T := by
  subst h
  simp only [setPose, setTransform, canonicalizePose]
  split
  · simp only [matrixFromPose, rotOfQuat]
    ext <;> ring
  · rfl

/-- Witness for C6 at the identity transform and the identity raw pose. -/
theorem pose_roundtrip_witness :
    matrixFromPose ⟨1, 0, 0, 0, 0, 0, 0⟩ = ⟨M3.id, ⟨0, 0, 0⟩⟩ ∧
      setPose ⟨M3.id, ⟨0, 0, 0⟩⟩ (canonicalizePose ⟨1, 0, 0, 0, 0, 0, 0⟩)
        = ⟨M3.id, ⟨0, 0, 0⟩⟩ := by
  have h : matrixFromPose ⟨1, 0, 0, 0, 0, 0, 0⟩ = ⟨M3.id, ⟨0, 0, 0⟩⟩ := by
    simp only [matrixFromPose, rotOfQuat, M3.id]
    ext <;> norm_num
  exact ⟨h, pose_roundtrip ⟨M3.id, ⟨0, 0, 0⟩⟩ ⟨M3.id, ⟨0, 0, 0⟩⟩
    ⟨1, 0, 0, 0, 0, 0, 0⟩ h⟩

/-- Modelled from the spec: the roll-pitch-yaw conversions live in
rotations.py (`rotation_matrix_from_rpy`, `rpy_from_quat`) and in the
external matrix-to-quaternion decomposition, none of which are under src/;
they are kept as an abstract triple of functions, and theorems hypothesize
the inverse-property instances the spec asserts for them. -/
structure RpyConv where
  rmFromRpy : ℚ → ℚ → ℚ → M3
  rpyFromQuat : V4 → V3
  quatOfRot : M3 → V4

/-- Quaternion block of a pose (`pose[0:4]`). -/
def Pose7.quat (pose : Pose7) : V4 := ⟨pose.qw, pose.qx, pose.qy, pose.qz⟩

/-- Body.quat: the quaternion block of the canonicalized pose. -/
def bodyQuat (c : RpyConv) (T : Transform) : V4 :=
  (bodyPose c.quatOfRot T).quat

/-- Body.rpy: `rpy_from_quat(self.quat)`. -/
def bodyRpy (c : RpyConv) (T : Transform) : V3 :=
  c.rpyFromQuat (bodyQuat c T)

/-- Body.set_rpy: overwrite the rotation block with
`rotation_matrix_from_rpy(roll, pitch, yaw)`. -/
def setRpy (c : RpyConv) (T : Transform) (roll pitch yaw : ℚ) : Transform :=
  setRotationMatrix T (c.rmFromRpy roll pitch yaw)

/-- Body.set_roll: `set_rpy([roll, self.pitch, self.yaw])`, re-reading the
current pitch and yaw. -/
def setRoll (c : RpyConv) (T : Transform) (roll : ℚ) : Transform :=
  setRpy c T roll (bodyRpy c T).y (bodyRpy c T).z

/-- Body.set_pitch: `set_rpy([self.roll, pitch, self.yaw])`, re-reading the
current roll and yaw. -/
def setPitch (c : RpyConv) (T : Transform) (pitch : ℚ) : Transform :=
  setRpy c T (bodyRpy c T).x pitch (bodyRpy c T).z

/-- C7: from the identity transform, set_roll(0.1) then set_pitch(0.2)
leaves the roll accessor reading 0.1, for every conversion triple whose rpy
readings invert rotation_matrix_from_rpy at the three rotations this
scenario visits. -/
theorem setRoll_setPitch_keeps_roll (c : RpyConv) (pos : V3)
    (h1 : bodyRpy c ⟨M3.id, pos⟩ = ⟨0, 0, 0⟩)
    (h2 : bodyRpy c ⟨c.rmFromRpy (1 / 10) 0 0, pos⟩ = ⟨1 / 10, 0, 0⟩)
    (h3 : (bodyRpy c ⟨c.rmFromRpy (1 / 10) (1 / 5) 0, pos⟩).x = 1 / 10) :
    (bodyRpy c (setPitch c (setRoll c ⟨M3.id, pos⟩ (1 / 10)) (1 / 5))).x
      = 1 / 10 := by
  have hroll : setRoll c ⟨M3.id, pos⟩ (1 / 10)
      = ⟨c.rmFromRpy (1 / 10) 0 0, pos⟩ := by
    simp only [setRoll, setRpy, setRotationMatrix, setTransform, h1]
  rw [hroll]
  have hpitch : setPitch c ⟨c.rmFromRpy (1 / 10) 0 0, pos⟩ (1 / 5)
      = ⟨c.rmFromRpy (1 / 10) (1 / 5) 0, pos⟩ := by
    simp only [setPitch, setRpy, setRotationMatrix, setTransform, h2]
  rw [hpitch, h3]

/-- Concrete conversion triple for the C7 witness: the rpy angles are
encoded into the off-diagonal entries m01, m02, m10 of the rotation block
(so the encoding of (0, 0, 0) is the identity matrix) and read back through
a quaternion whose scalar component is 1. -/
def rpyConvEnc : RpyConv where
  rmFromRpy := fun r p y => ⟨1, r, p, y, 1, 0, 0, 0, 1⟩
  rpyFromQuat := fun q => ⟨q.x, q.y, q.z⟩
  quatOfRot := fun M => ⟨1, M.m01, M.m02, M.m10⟩

/-- Witness for C7 with the encoding conversion triple. -/
theorem setRoll_setPitch_keeps_roll_witness :
    (bodyRpy rpyConvEnc
        (setPitch rpyConvEnc
          (setRoll rpyConvEnc ⟨M3.id, ⟨0, 0, 0⟩⟩ (1 / 10)) (1 / 5))).x
      = 1 / 10 := by
  refine setRoll_setPitch_keeps_roll rpyConvEnc ⟨0, 0, 0⟩ ?_ ?_ ?_ <;>
    simp only [bodyRpy, bodyQuat, bodyPose, rawPose, canonicalizePose,
      rpyConvEnc, Pose7.quat, M3.id] <;>
    norm_num

/-! Link tasks (tasks/link.py).  A task target is a Python list, a numpy
array, a body (an object with the `p` and `pose` accessors) or anything
else; numpy 1-D arrays are rational lists. -/

/-- Task target as dispatched by the `type(target) is list` /
`hasattr(target, ...)` / `type(target) is ndarray` probing in
LinkPosTask.__init__ and LinkPoseTask.__init__. -/
inductive RawTarget where
  | pylist (v : List ℚ)
  | nparray (v : List ℚ)
  | body
  | other
deriving DecidableEq

/-- The residual closure a successful construction captures: either the
body branch (reading the target body live each cycle) or the vector branch
capturing the array. -/
inductive TaskClosure where
  | fromBody
  | fromVec (v : List ℚ)
deriving DecidableEq

/-- The `if type(target) is list: target = array(target)` conversion at the
top of both constructors. -/
def coerceListTarget : RawTarget → RawTarget
  | .pylist v => .nparray v
  | t => t

/-- LinkPosTask.__init__ target dispatch: a body target (one with the `p`
attribute) or an ndarray of any shape is accepted; anything else raises.
No dimension check is performed. -/
def linkPosTaskInit (t : RawTarget) : Option TaskClosure :=
  match coerceListTarget t with
  | .body => some .fromBody
  | .nparray v => some (.fromVec v)
  | _ => none

/-- LinkPoseTask.__init__ target dispatch: a body target (one with the
`pose` attribute) or an ndarray of any shape is accepted; anything else
raises.  No dimension check is performed. -/
def linkPoseTaskInit (t : RawTarget) : Option TaskClosure :=
  match coerceListTarget t with
  | .body => some .fromBody
  | .nparray v => some (.fromVec v)
  | _ => none

/-- numpy 1-D elementwise subtraction: defined when the shapes match, or
when either operand has length 1 (broadcasting); any other shape pair
raises, modelled by none. -/
def nSub (a b : List ℚ) : Option (List ℚ) :=
  if a.length = b.length then some (List.zipWith (fun u v => u - v) a b)
  else if a.length = 1 then some (b.map (fun v => a.headI - v))
  else if b.length = 1 then some (a.map (fun u => u - b.headI))
  else none

/-- numpy 1-D elementwise multiplication with the same broadcasting rule. -/
def nMul (a b : List ℚ) : Option (List ℚ) :=
  if a.length = b.length then some (List.zipWith (fun u v => u * v) a b)
  else if a.length = 1 then some (b.map (fun v => a.headI * v))
  else if b.length = 1 then some (a.map (fun u => u * b.headI))
  else none

/-- The module constant `_oppose_quat = array([-1, -1, -1, -1, 1, 1, 1])`. -/
def opposeQuat : List ℚ := [-1, -1, -1, -1, 1, 1, 1]

/-- Orientation-block squared norm `dot(residual[0:4], residual[0:4])`. -/
def sumSq4 (r : List ℚ) : ℚ := ((r.take 4).map (fun a => a * a)).sum

/-- LinkPoseTask.pos_residual on a target pose vector: residual =
target - link.pose; when the orientation block of that difference has
squared norm above 1, recompute as `_oppose_quat * target - link.pose`.
The body branch evaluates the same expression at the target body's live
pose. -/
def posePosResidual (target linkPose : List ℚ) : Option (List ℚ) :=
  (nSub target linkPose).bind (fun r =>
    if 1 < sumSq4 r then
      (nMul opposeQuat target).bind (fun t2 => nSub t2 linkPose)
    else some r)

/-- LinkPosTask residual evaluation for a constructed closure: the body
branch reads the target body's live position, the vector branch uses the
captured array; either way the link position is subtracted. -/
def posResidualOf (cl : TaskClosure) (targetPos linkPos : List ℚ) :
    Option (List ℚ) :=
  match cl with
  | .fromBody => nSub targetPos linkPos
  | .fromVec v => nSub v linkPos

/-- LinkPoseTask residual evaluation for a constructed closure. -/
def poseResidualOf (cl : TaskClosure) (targetPose linkPose : List ℚ) :
    Option (List ℚ) :=
  match cl with
  | .fromBody => posePosResidual targetPose linkPose
  | .fromVec v => posePosResidual v linkPose

/-- Residual of a LinkPosTask construction result (none when construction
raised). -/
def posResidualOfInit (r : Option TaskClosure) (targetPos linkPos : List ℚ) :
    Option (List ℚ) :=
  match r with
  | some cl => posResidualOf cl targetPos linkPos
  | none => none

/-- Residual of a LinkPoseTask construction result (none when construction
raised). -/
def poseResidualOfInit (r : Option TaskClosure) (targetPose linkPose : List ℚ) :
    Option (List ℚ) :=
  match r with
  | some cl => poseResidualOf cl targetPose linkPose
  | none => none

/-- Every list of length seven is a literal seven-element list. -/
theorem len7_cases {α : Type} (t : List α) (h : t.length = 7) :
    ∃ a0 a1 a2 a3 a4 a5 a6, t = [a0, a1, a2, a3, a4, a5, a6] := by
  obtain _ | ⟨a0, t⟩ := t
  · simp at h
  obtain _ | ⟨a1, t⟩ := t
  · simp at h
  obtain _ | ⟨a2, t⟩ := t
  · simp at h
  obtain _ | ⟨a3, t⟩ := t
  · simp at h
  obtain _ | ⟨a4, t⟩ := t
  · simp at h
  obtain _ | ⟨a5, t⟩ := t
  · simp at h
  obtain _ | ⟨a6, t⟩ := t
  · simp at h
  obtain _ | ⟨a7, t⟩ := t
  · exact ⟨a0, a1, a2, a3, a4, a5, a6, rfl⟩
  · simp only [List.length_cons] at h
    omega

/-- C1 (amended): for 7-element target and link poses, the LinkPoseTask
residual is the componentwise difference; when the orientation block of
that difference has squared norm above 1 it is recomputed with the target
quaternion negated, the translation block staying as originally computed;
and the residual is invariant under negating the target quaternion exactly
when the two candidate orientation blocks are not both above the threshold
(for unit quaternions: when their dot product has absolute value at least
one half). -/
theorem linkPoseTask_residual_spec (t l : List ℚ) (ht : t.length = 7)
    (hl : l.length = 7) :
    (sumSq4 (List.zipWith (fun a b => a - b) t l) ≤ 1 →
      posePosResidual t l = some (List.zipWith (fun a b => a - b) t l)) ∧
    (1 < sumSq4 (List.zipWith (fun a b => a - b) t l) →
      posePosResidual t l
        = some (List.zipWith (fun a b => a - b)
            (List.zipWith (fun a b => a * b) opposeQuat t) l) ∧
      (List.zipWith (fun a b => a - b)
          (List.zipWith (fun a b => a * b) opposeQuat t) l).drop 4
        = (List.zipWith (fun a b => a - b) t l).drop 4 ∧
      (List.zipWith (fun a b => a - b)
          (List.zipWith (fun a b => a * b) opposeQuat t) l).take 4
        = List.zipWith (fun a b => a - b) ((t.take 4).map (fun a => -a))
            (l.take 4)) ∧
    ((sumSq4 (List.zipWith (fun a b => a - b) t l) ≤ 1 ∧
        1 < sumSq4 (List.zipWith (fun a b => a - b)
          (List.zipWith (fun a b => a * b) opposeQuat t) l)) ∨
      (1 < sumSq4 (List.zipWith (fun a b => a - b) t l) ∧
        sumSq4 (List.zipWith (fun a b => a - b)
          (List.zipWith (fun a b => a * b) opposeQuat t) l) ≤ 1) →
      posePosResidual t l
        = posePosResidual (List.zipWith (fun a b => a * b) opposeQuat t) l) := by
  obtain ⟨a0, a1, a2, a3, a4, a5, a6, rfl⟩ := len7_cases t ht
  obtain ⟨b0, b1, b2, b3, b4, b5, b6, rfl⟩ := len7_cases l hl
  refine ⟨fun h => ?_, fun h => ?_, fun h => ?_⟩
  · norm_num [posePosResidual, nSub, nMul, sumSq4, opposeQuat] at h ⊢
    exact fun hc => absurd hc (not_lt.mpr h)
  · norm_num [posePosResidual, nSub, nMul, sumSq4, opposeQuat] at h ⊢
    exact fun hc => absurd h (not_lt.mpr hc)
  · obtain ⟨h1, h2⟩ | ⟨h1, h2⟩ := h <;>
      norm_num [posePosResidual, nSub, nMul, sumSq4, opposeQuat] at h1 h2 ⊢
    · rw [if_neg (not_lt.mpr h1), if_pos h2]
    · rw [if_pos h1, if_neg (not_lt.mpr h2)]

/-- Witness for C1 at end-to-end scenario 4: target quaternion
(-1, 0, 0, 0) against link quaternion (1, 0, 0, 0) gives a zero residual
through the double-cover correction. -/
theorem linkPoseTask_residual_spec_witness :
    1 < sumSq4 (List.zipWith (fun a b => a - b)
        [(-1 : ℚ), 0, 0, 0, 0, 0, 0] [1, 0, 0, 0, 0, 0, 0]) ∧
    posePosResidual [(-1 : ℚ), 0, 0, 0, 0, 0, 0] [1, 0, 0, 0, 0, 0, 0]
      = some [0, 0, 0, 0, 0, 0, 0] := by
  have hgt : 1 < sumSq4 (List.zipWith (fun a b => a - b)
      [(-1 : ℚ), 0, 0, 0, 0, 0, 0] [1, 0, 0, 0, 0, 0, 0]) := by
    norm_num [sumSq4]
  refine ⟨hgt, ?_⟩
  have h := (linkPoseTask_residual_spec [-1, 0, 0, 0, 0, 0, 0]
    [1, 0, 0, 0, 0, 0, 0] rfl rfl).2.1 hgt
  rw [h.1]
  norm_num [opposeQuat]

/-- C1 counterexample: for the legitimate unit-quaternion poses with target
quaternion (0, 1, 0, 0) and link quaternion (1, 0, 0, 0) (a 180-degree
rotation apart), both candidate orientation residuals have squared norm 2,
the correction fires on both signs of the target, and the two residuals
differ: quaternion sign invariance fails as stated. -/
theorem linkPoseTask_sign_invariance_cex :
    posePosResidual [(0 : ℚ), 1, 0, 0, 0, 0, 0] [1, 0, 0, 0, 0, 0, 0]
      ≠ posePosResidual
          (List.zipWith (fun a b => a * b) opposeQuat
            [(0 : ℚ), 1, 0, 0, 0, 0, 0])
          [1, 0, 0, 0, 0, 0, 0] := by
  norm_num [posePosResidual, nSub, nMul, sumSq4, opposeQuat]

/-- C8 counterexample: a numeric-vector target of dimension 2 (matching
neither the position dimension 3 nor the pose dimension 7) is accepted by
both constructors, where the claim requires construction to fail. -/
theorem taskInit_no_dimension_check :
    linkPosTaskInit (.nparray [0, 0]) = some (.fromVec [0, 0]) ∧
    linkPoseTaskInit (.nparray [0, 0]) = some (.fromVec [0, 0]) :=
  ⟨rfl, rfl⟩

/-- C8 (amended): construction fails exactly when the target neither
provides the expected accessor nor is a numeric array of any dimension
(lists are converted to arrays and accepted); no dimension check is
performed at construction. -/
theorem taskInit_fails_iff (t : RawTarget) :
    (linkPosTaskInit t = none ↔ t = .other) ∧
    (linkPoseTaskInit t = none ↔ t = .other) := by
  cases t <;> simp [linkPosTaskInit, linkPoseTaskInit, coerceListTarget]

/-- C9 counterexample: the task built from the 2-element vector target is
constructed successfully, yet its residual against a link position at the
origin is a numpy broadcast error (none), not the target position minus
the link position. -/
theorem linkPosTask_dim_mismatch_cex :
    linkPosTaskInit (.nparray [0, 0]) ≠ none ∧
    posResidualOfInit (linkPosTaskInit (.nparray [0, 0])) [0, 0, 0] [0, 0, 0]
      = none := by
  refine ⟨?_, rfl⟩
  simp [linkPosTaskInit, coerceListTarget]

/-- C9 (amended): for a LinkPosTask built from a body target or a
3-element vector target, the residual is the target position minus the
link position, read live; with target vector (1, 0, 0) and link at the
origin the residual is (1, 0, 0), and after moving the link to (1, 0, 0)
it is (0, 0, 0). -/
theorem linkPosTask_residual_spec (v targetPos linkPos : List ℚ) :
    (v.length = 3 → linkPos.length = 3 →
      posResidualOf (.fromVec v) targetPos linkPos
        = some (List.zipWith (fun a b => a - b) v linkPos)) ∧
    (targetPos.length = 3 → linkPos.length = 3 →
      posResidualOf .fromBody targetPos linkPos
        = some (List.zipWith (fun a b => a - b) targetPos linkPos)) ∧
    posResidualOf (.fromVec [1, 0, 0]) targetPos [0, 0, 0]
      = some [1, 0, 0] ∧
    posResidualOf (.fromVec [1, 0, 0]) targetPos [1, 0, 0]
      = some [0, 0, 0] := by
  refine ⟨fun hv hl => ?_, fun hv hl => ?_, ?_, ?_⟩
  · simp only [posResidualOf, nSub, hv, hl, if_pos]
  · simp only [posResidualOf, nSub, hv, hl, if_pos]
  · norm_num [posResidualOf, nSub]
  · norm_num [posResidualOf, nSub]

/-- Witness for C9 at a 3-element vector target and 3-element link
position. -/
theorem linkPosTask_residual_spec_witness :
    posResidualOf (.fromVec [1, 2, 3]) [9, 9, 9] [1, 1, 1]
      = some [0, 1, 2] := by
  have h := (linkPosTask_residual_spec [1, 2, 3] [9, 9, 9] [1, 1, 1]).1 rfl rfl
  rw [h]
  norm_num

/-- C10: a Python-list target is converted to an array at construction;
construction succeeds, and both the construction result and every
subsequent residual agree with those of the equivalent array target. -/
theorem listTarget_equiv (v targetPos targetPose linkPos linkPose : List ℚ) :
    (linkPosTaskInit (.pylist v)).isSome = true ∧
    (linkPoseTaskInit (.pylist v)).isSome = true ∧
    linkPosTaskInit (.pylist v) = linkPosTaskInit (.nparray v) ∧
    linkPoseTaskInit (.pylist v) = linkPoseTaskInit (.nparray v) ∧
    posResidualOfInit (linkPosTaskInit (.pylist v)) targetPos linkPos
      = posResidualOfInit (linkPosTaskInit (.nparray v)) targetPos linkPos ∧
    poseResidualOfInit (linkPoseTaskInit (.pylist v)) targetPose linkPose
      = poseResidualOfInit (linkPoseTaskInit (.nparray v)) targetPose linkPose := by
  simp [linkPosTaskInit, linkPoseTaskInit, coerceListTarget]

end Pymanoid
